import Mathlib

/-!
Verification of the prkrstreamserver pub/sub broker against its
natural-language specification.

The development shallowly embeds the Python sources:
  src/utils/ring_buffer.py       (RingBuffer)
  src/utils/validation.py        (validate_topic_name)
  src/topics/subscriber.py       (Subscriber)
  src/topics/topic_manager.py    (Topic, TopicManager)

Machine reals (Python floats used for timestamps and latencies) are
modelled as exact rationals; Python ints as Nat/Int; dicts as
association lists or records; fallible enqueue as an explicit
queue-full branch.  Sink (websocket) behaviour, which is external
nondeterminism, is passed in as an explicit parameter.
-/

namespace PubSub

/-! RingBuffer — src/utils/ring_buffer.py.

The buffer is a Python list guarded by a lock; each public method is one
critical section and is embedded as one pure function. -/

structure RingBuffer (T : Type) where
  capacity : Nat
  buffer : List T
deriving DecidableEq

/-- Embeds RingBuffer.append (ring_buffer.py:15-19): append, then pop the
oldest element when the length exceeds the capacity. -/
def RingBuffer.append (rb : RingBuffer T) (item : T) : RingBuffer T :=
  let b := rb.buffer ++ [item]
  { rb with buffer := if rb.capacity < b.length then b.drop 1 else b }

/-- Embeds RingBuffer.get_last_n (ring_buffer.py:21-25).  Python slicing
buffer[-n:] for 0 < n < len is the last n elements, i.e. drop (len - n);
the else branch returns a copy of the whole list.  n is an int in the
source, so the embedding takes an Int. -/
def RingBuffer.get_last_n (rb : RingBuffer T) (n : Int) : List T :=
  if n ≤ 0 then []
  else if n < (rb.buffer.length : Int) then rb.buffer.drop (rb.buffer.length - n.toNat)
  else rb.buffer

/-! validate_topic_name — src/utils/validation.py.

The call re.match(r'^[a-zA-Z0-9_\-\.]+$', name) anchors at the start; the
character class cannot match a newline, so the quantified part always
matches a prefix of class characters, and the Python dollar anchor then
accepts either the end of the string or the position just before one
final trailing newline.  Hence the regex call succeeds exactly when the
greedy class prefix (takeWhile) leaves a remainder that is empty or a
single final newline. -/

/-- Character class [a-zA-Z0-9_\-\.] of validation.py:7. -/
def isTopicChar (c : Char) : Bool :=
  (('a' ≤ c) && (c ≤ 'z')) || (('A' ≤ c) && (c ≤ 'Z')) ||
  (('0' ≤ c) && (c ≤ '9')) || (c == '_') || (c == '-') || (c == '.')

/-- Embeds the Python call re.match on the pattern of validation.py:7,
including the dollar anchor's acceptance of one trailing newline. -/
def regexMatchTopicName (s : List Char) : Bool :=
  let body := s.takeWhile isTopicChar
  let rest := s.dropWhile isTopicChar
  !body.isEmpty && (rest.isEmpty || rest == ['\n'])

/-- Embeds validate_topic_name (validation.py:4-9).  Strings are modelled
as lists of characters; Python len counts code points, matching
List.length. -/
def validate_topic_name (name : List Char) : Bool :=
  if name.isEmpty || decide (255 < name.length) then false
  else if !(regexMatchTopicName name) then false
  else true

/-! Messages.

Topic.publish_message (topic_manager.py:284-290) builds one dict per
message, with keys type, topic, data, message_id and _publish_time, and
the very same dict object is appended to the replay ring, enqueued on the
ingest queue, and eventually passed to websocket.send_json.  The dict is
embedded as a record; its wire (JSON) form is recovered by EventMsg.frame,
which lists the dict entries in construction order. -/

structure EventMsg (D : Type) where
  topic : String
  data : D
  message_id : String
  publish_time : ℚ
deriving DecidableEq

inductive FieldVal (D : Type) where
  | str (s : String)
  | payload (d : D)
  | time (q : ℚ)
deriving DecidableEq

/-- Wire form of the message dict of topic_manager.py:284-290, key by key
in construction order.  websocket.send_json serializes exactly these
entries; nothing in the code strips any key before sending. -/
def EventMsg.frame (m : EventMsg D) : List (String × FieldVal D) :=
  [("type", FieldVal.str "event"),
   ("topic", FieldVal.str m.topic),
   ("data", FieldVal.payload m.data),
   ("message_id", FieldVal.str m.message_id),
   ("_publish_time", FieldVal.time m.publish_time)]

/-! Subscriber — src/topics/subscriber.py. -/

structure Subscriber where
  client_id : Nat
  topic : String
  closed : Bool
deriving DecidableEq

/-- Embeds Subscriber.close (subscriber.py:32-34). -/
def Subscriber.close (s : Subscriber) : Subscriber := { s with closed := true }

/-- Embeds Subscriber.is_closed (subscriber.py:36-38). -/
def Subscriber.is_closed (s : Subscriber) : Bool := s.closed

/-- Embeds Subscriber.send_batch (subscriber.py:40-61).  The websocket is
external, so its behaviour is a parameter: sinkFailsAt = some k means the
(k+1)-st send_json call raises; none means every call succeeds.  The
result is (return value, messages actually emitted to the sink in order,
subscriber state afterwards). -/
def Subscriber.send_batch (sub : Subscriber) (messages : List (EventMsg D))
    (sinkFailsAt : Option Nat) : Bool × List (EventMsg D) × Subscriber :=
  if sub.closed then (false, [], sub)
  else
    match sinkFailsAt with
    | none => (true, messages, sub)
    | some k =>
        if k < messages.length then (false, messages.take k, { sub with closed := true })
        else (true, messages, sub)

/-! Topic — src/topics/topic_manager.py, class Topic.

Every mutation of topic state in the source happens inside a critical
section of the topic's lock (or of the ring's own lock); each such
section is embedded as one pure function on the state below.  The
subscriber dict (client id to Subscriber, insertion ordered) is an
association list keyed by client_id. -/

structure Topic (D : Type) where
  name : String
  subscribers : List Subscriber
  message_buffer : RingBuffer (EventMsg D)
  message_count : Nat
  queue : List (EventMsg D)
  queue_maxsize : Nat
  messages_published : Nat
  messages_delivered : Nat
  messages_dropped : Nat
  latencies : List ℚ
  batch_sizes : List Nat
deriving DecidableEq

/-- Rolling-sample cap of topic_manager.py:59. -/
def maxMetricsSamples : Nat := 1000

/-- Embeds Topic.__init__ (topic_manager.py:36-59) with the defaults used
by TopicManager (replay_buffer_size=100, queue maxsize=10000). -/
def Topic.init (name : String) : Topic D :=
  { name := name, subscribers := [], message_buffer := ⟨100, []⟩, message_count := 0,
    queue := [], queue_maxsize := 10000, messages_published := 0, messages_delivered := 0,
    messages_dropped := 0, latencies := [], batch_sizes := [] }

/-- Embeds Topic.add_subscriber (topic_manager.py:61-64): dict assignment
keyed by client_id (overwrite in place if present, else append). -/
def Topic.add_subscriber (t : Topic D) (sub : Subscriber) : Topic D :=
  if t.subscribers.any (fun s => s.client_id == sub.client_id) then
    { t with subscribers :=
        t.subscribers.map (fun s => if s.client_id == sub.client_id then sub else s) }
  else
    { t with subscribers := t.subscribers ++ [sub] }

/-- Embeds Topic.remove_subscriber (topic_manager.py:66-73): pops the
entry if present (closing the popped handle) and reports whether an entry
was removed. -/
def Topic.remove_subscriber (t : Topic D) (cid : Nat) : Topic D × Bool :=
  if t.subscribers.any (fun s => s.client_id == cid) then
    ({ t with subscribers := t.subscribers.filter (fun s => !(s.client_id == cid)) }, true)
  else (t, false)

/-- Embeds Topic.subscriber_count (topic_manager.py:83-85). -/
def Topic.subscriber_count (t : Topic D) : Nat := t.subscribers.length

/-- Embeds Topic.get_replay_messages (topic_manager.py:309-310). -/
def Topic.get_replay_messages (t : Topic D) (last_n : Int) : List (EventMsg D) :=
  t.message_buffer.get_last_n last_n

/-- Rolling-sample trim applied after every append
(topic_manager.py:193-194, 226-227): keep the last maxMetricsSamples. -/
def trimSamples (l : List α) : List α :=
  if maxMetricsSamples < l.length then l.drop (l.length - maxMetricsSamples) else l

/-- Embeds Topic.publish_message (topic_manager.py:273-307).  The message
dict is built once; ring append, counter bumps and the subscriber-count
read happen under the topic lock; the non-blocking put_nowait then either
enqueues the same message or raises QueueFull (asyncio raises exactly
when qsize has reached maxsize, maxsize being 10000 > 0 here), in which
case the dropped counter is incremented.  Every branch returns the
subscriber count read under the lock; nothing escapes, so the embedding
is a total function. -/
def Topic.publish_message (t : Topic D) (data : D) (message_id : String) (now : ℚ) :
    Topic D × Nat :=
  let message : EventMsg D := ⟨t.name, data, message_id, now⟩
  let t1 := { t with
    message_buffer := t.message_buffer.append message,
    message_count := t.message_count + 1,
    messages_published := t.messages_published + 1 }
  let subscriber_count := t1.subscribers.length
  if t1.queue.length < t1.queue_maxsize then
    ({ t1 with queue := t1.queue ++ [message] }, subscriber_count)
  else
    ({ t1 with messages_dropped := t1.messages_dropped + 1 }, subscriber_count)

/-- Outcome of one per-subscriber send inside a flush
(topic_manager.py:245-271): ok is send_batch returning True within the
timeout; failed is send_batch returning False, or a timeout or exception
caught inside _send_with_timeout (which also closes the handle); raised
is an exception surfacing through asyncio.gather. -/
inductive SendOutcome where
  | ok
  | failed
  | raised
deriving DecidableEq

/-- Embeds the batch-size sample append of topic_manager.py:191-194. -/
def Topic.record_batch_size (t : Topic D) (k : Nat) : Topic D :=
  { t with batch_sizes := trimSamples (t.batch_sizes ++ [k]) }

/-- Embeds the latency sample appends of topic_manager.py:218-227: one
sample per batch message whose _publish_time is truthy (nonzero). -/
def Topic.record_latencies (t : Topic D) (batch : List (EventMsg D)) (now : ℚ) : Topic D :=
  batch.foldl
    (fun acc m =>
      if m.publish_time = 0 then acc
      else { acc with latencies := trimSamples (acc.latencies ++ [(now - m.publish_time) * 1000]) })
    t

/-- Embeds Topic._flush_batch (topic_manager.py:169-243).  The per-send
results, which depend on the external sinks, are passed in as outcomes
(zipped against the active snapshot exactly as the source zips
active_subscribers with gather results).  Returns the topic state and the
list of handles detached by this flush, each closed (remove_subscriber
closes the popped handle; timeout and exception paths had already closed
it inside _send_with_timeout). -/
def Topic.flush_batch (t : Topic D) (batch : List (EventMsg D))
    (outcomes : List SendOutcome) (now : ℚ) : Topic D × List Subscriber :=
  if batch.isEmpty then (t, [])
  else
    let t1 := t.record_batch_size batch.length
    if t1.subscribers.isEmpty then (t1, [])
    else
      let active := t1.subscribers.filter (fun s => !s.is_closed)
      if active.isEmpty then (t1, [])
      else
        let t2 := t1.record_latencies batch now
        let pairs := active.zip outcomes
        let failures := pairs.filter (fun p => !(p.2 == SendOutcome.ok))
        let successes := (pairs.filter (fun p => p.2 == SendOutcome.ok)).length
        let t3 := failures.foldl (fun acc p => (acc.remove_subscriber p.1.client_id).1) t2
        let t4 := { t3 with messages_delivered := t3.messages_delivered + batch.length * successes }
        (t4, failures.map (fun p => { p.1 with closed := true }))

/-- Metrics snapshot record of Topic.get_metrics (topic_manager.py:343-356).
The source rounds the three latency figures and the batch-size average to
two decimals for display (Python round on floats); that display rounding
is not modelled, the fields below hold the exact values being rounded. -/
structure Metrics where
  queue_depth : Nat
  queue_max_size : Nat
  batch_size_avg : ℚ
  messages_published : Nat
  messages_delivered : Nat
  messages_dropped : Nat
  subscriber_count : Nat
  latency_avg : ℚ
  latency_p95 : ℚ
  latency_p99 : ℚ
deriving DecidableEq

/-- Embeds Topic.get_metrics (topic_manager.py:316-356).  Python computes
the percentile indices as min(int(n * 0.95), n - 1) and
min(int(n * 0.99), n - 1) in float arithmetic; n is at most 1000 here
(the slice keeps at most maxMetricsSamples samples), and for every
n in 0..1000 the float expressions int(n * 0.95) and int(n * 0.99) equal
the integer quotients n * 95 / 100 and n * 99 / 100 (checked
exhaustively), so the embedding uses the quotients.  sorted(latencies)
is embedded as insertion sort: the sorted rearrangement of a list is
unique as a value, so the algorithm choice is immaterial. -/
def Topic.get_metrics (t : Topic D) : Metrics :=
  let latencies := t.latencies.drop (t.latencies.length - maxMetricsSamples)
  let lat : ℚ × ℚ × ℚ :=
    if latencies.isEmpty then (0, 0, 0)
    else
      let sorted_latencies := List.insertionSort (· ≤ ·) latencies
      let avg_latency := latencies.sum / (latencies.length : ℚ)
      let p95_idx := min (sorted_latencies.length * 95 / 100) (sorted_latencies.length - 1)
      let p99_idx := min (sorted_latencies.length * 99 / 100) (sorted_latencies.length - 1)
      (avg_latency, sorted_latencies.getD p95_idx 0, sorted_latencies.getD p99_idx 0)
  let batch_sizes := t.batch_sizes.drop (t.batch_sizes.length - maxMetricsSamples)
  let batch_size_avg : ℚ :=
    if batch_sizes.isEmpty then 0
    else ((batch_sizes.map (fun k => (k : ℚ))).sum) / (batch_sizes.length : ℚ)
  { queue_depth := t.queue.length,
    queue_max_size := t.queue_maxsize,
    batch_size_avg := batch_size_avg,
    messages_published := t.messages_published,
    messages_delivered := t.messages_delivered,
    messages_dropped := t.messages_dropped,
    subscriber_count := t.subscribers.length,
    latency_avg := lat.1,
    latency_p95 := lat.2.1,
    latency_p99 := lat.2.2 }

/-- Embeds Topic.close_all_subscribers (topic_manager.py:358-367): closes
every handle and clears the subscriber dict. -/
def Topic.close_all_subscribers (t : Topic D) : Topic D :=
  { t with subscribers := [] }

/-! Reachability of topic states: the initial state of Topic.__init__,
closed under the operations the source performs on a live topic. -/

inductive TopicStep (D : Type) : Topic D → Topic D → Prop where
  | publish (t : Topic D) (data : D) (mid : String) (now : ℚ) :
      TopicStep D t (t.publish_message data mid now).1
  | add (t : Topic D) (sub : Subscriber) : TopicStep D t (t.add_subscriber sub)
  | remove (t : Topic D) (cid : Nat) : TopicStep D t (t.remove_subscriber cid).1
  | deliver (t : Topic D) (k : Nat) (outcomes : List SendOutcome) (now : ℚ) :
      TopicStep D t
        ((({ t with queue := t.queue.drop k } : Topic D).flush_batch
            (t.queue.take k) outcomes now).1)
  | closeAll (t : Topic D) : TopicStep D t t.close_all_subscribers

inductive TopicReachable (D : Type) : Topic D → Prop where
  | init (name : String) : TopicReachable D (Topic.init name)
  | step {t t' : Topic D} :
      TopicReachable D t → TopicStep D t t' → TopicReachable D t'

/-- Concrete topic with two live subscribers, used below. -/
def flushExampleTopic : Topic Nat :=
  ((Topic.init "t").add_subscriber ⟨1, "t", false⟩).add_subscriber ⟨2, "t", false⟩

/-- Rolling window actually used by get_metrics: the slice keeping the
most recent maxMetricsSamples latency samples (topic_manager.py:326). -/
def rollingSamples (t : Topic D) : List ℚ :=
  t.latencies.drop (t.latencies.length - maxMetricsSamples)

/-! TopicManager — src/topics/topic_manager.py, class TopicManager.

The registry dict (name to Topic, insertion ordered, guarded by the
global lock) is an association list; each method is embedded as one pure
function returning the new registry and the Python return value. -/

structure TopicManager (D : Type) where
  topics : List (String × Topic D)
deriving DecidableEq

/-- Embeds TopicManager.get_topic (topic_manager.py:421-423). -/
def TopicManager.get_topic (s : TopicManager D) (name : String) : Option (Topic D) :=
  (s.topics.find? (fun p => p.1 == name)).map (fun p => p.2)

/-- Embeds TopicManager.create_topic (topic_manager.py:386-399):
idempotent; when absent, constructs a Topic (whose delivery worker starts;
delivery is modelled by the deliver step of MgrOp below) and inserts it;
returns True either way. -/
def TopicManager.create_topic (s : TopicManager D) (name : String) : TopicManager D × Bool :=
  match s.get_topic name with
  | some _ => (s, true)
  | none => ({ topics := s.topics ++ [(name, Topic.init name)] }, true)

/-- Embeds TopicManager.delete_topic (topic_manager.py:401-419): pops the
registry entry under the global lock and only then, outside the lock,
shuts the popped Topic down (close_all_subscribers); the shutdown acts on
the popped object only and cannot touch the registry, so the embedding
returns the registry as it is right after the pop. -/
def TopicManager.delete_topic (s : TopicManager D) (name : String) : TopicManager D × Bool :=
  match s.get_topic name with
  | none => (s, false)
  | some _ => ({ topics := s.topics.filter (fun p => !(p.1 == name)) }, true)

/-- Replaces the state of an existing topic; in Python the Topic object in
the dict is mutated in place, which this models. -/
def TopicManager.updateTopic (s : TopicManager D) (name : String) (t : Topic D) :
    TopicManager D :=
  { topics := s.topics.map (fun p => if p.1 == name then (p.1, t) else p) }

/-- Embeds TopicManager.publish (topic_manager.py:470-482): not-found gives
None, else Topic.publish_message runs and its subscriber count is
returned. -/
def TopicManager.publish (s : TopicManager D) (name : String) (data : D)
    (mid : String) (now : ℚ) : TopicManager D × Option Nat :=
  match s.get_topic name with
  | none => (s, none)
  | some t => (s.updateTopic name (t.publish_message data mid now).1,
               some (t.publish_message data mid now).2)

/-- Embeds TopicManager.subscribe (topic_manager.py:437-458): not-found
gives None; else a fresh Subscriber is added and, for last_n > 0, the
replay snapshot is returned, else an empty list. -/
def TopicManager.subscribe (s : TopicManager D) (name : String) (client_id : Nat)
    (last_n : Int) : TopicManager D × Option (List (EventMsg D)) :=
  match s.get_topic name with
  | none => (s, none)
  | some t =>
      (s.updateTopic name (t.add_subscriber ⟨client_id, name, false⟩),
       if 0 < last_n
       then some ((t.add_subscriber ⟨client_id, name, false⟩).get_replay_messages last_n)
       else some [])

/-- Embeds TopicManager.unsubscribe (topic_manager.py:460-468). -/
def TopicManager.unsubscribe (s : TopicManager D) (name : String) (client_id : Nat) :
    TopicManager D × Bool :=
  match s.get_topic name with
  | none => (s, false)
  | some t => (s.updateTopic name (t.remove_subscriber client_id).1,
               (t.remove_subscriber client_id).2)

/-- Embeds TopicManager.cleanup_subscriber (topic_manager.py:551-562). -/
def TopicManager.cleanup_subscriber (s : TopicManager D) (client_id : Nat) :
    TopicManager D :=
  { topics := s.topics.map (fun p => (p.1, (p.2.remove_subscriber client_id).1)) }

/-- Registry-level operations of the source, used to express what can
happen to the registry after a deletion: every public TopicManager method
that changes state, plus one delivery-worker step of some topic. -/
inductive MgrOp (D : Type) where
  | create (name : String)
  | delete (name : String)
  | publishOp (name : String) (data : D) (mid : String) (now : ℚ)
  | subscribeOp (name : String) (client_id : Nat) (last_n : Int)
  | unsubscribeOp (name : String) (client_id : Nat)
  | cleanup (client_id : Nat)
  | deliverOp (name : String) (k : Nat) (outcomes : List SendOutcome) (now : ℚ)
deriving DecidableEq

def MgrOp.apply (op : MgrOp D) (s : TopicManager D) : TopicManager D :=
  match op with
  | .create n => (s.create_topic n).1
  | .delete n => (s.delete_topic n).1
  | .publishOp n d m now => (s.publish n d m now).1
  | .subscribeOp n c l => (s.subscribe n c l).1
  | .unsubscribeOp n c => (s.unsubscribe n c).1
  | .cleanup c => s.cleanup_subscriber c
  | .deliverOp n k o now =>
      match s.get_topic n with
      | none => s
      | some t => s.updateTopic n
          ((({ t with queue := t.queue.drop k } : Topic D).flush_batch
              (t.queue.take k) o now).1)

def MgrOp.isCreateOf (op : MgrOp D) (name : String) : Bool :=
  match op with
  | .create n => n == name
  | _ => false

def applyOps (s : TopicManager D) (ops : List (MgrOp D)) : TopicManager D :=
  ops.foldl (fun acc op => op.apply acc) s

/-- Concrete two-topic registry used by the witnesses below. -/
def registryExample : TopicManager Nat :=
  (((TopicManager.mk [] : TopicManager Nat).create_topic "t").1.create_topic "u").1

/-! Claim C2 concerns the attach operation TopicManager.subscribe
(topic_manager.py:437-458).  The source acquires no mutex for the attach
as a whole: get_topic takes and releases the global lock (422-423),
add_subscriber takes and releases the topic lock (62-64), and
get_replay_messages takes and releases only the ring buffer lock
(309-310, ring_buffer.py:22); between these critical sections other
threads may run.  The trace below interleaves a publish between the
subscriber-set insertion and the replay snapshot; the published message
then appears both in the replay prefix handed to the subscriber and in
the live batch the delivery worker later sends to it. -/

/-- Topic state after step 1 of the attach: the subscriber is in the set
(add_subscriber has run), the replay snapshot has not yet been taken. -/
def attachTraceAfterAdd : Topic Nat :=
  (Topic.init "t").add_subscriber ⟨7, "t", false⟩

/-- Step 2: a concurrent publish runs in full (its own critical sections)
before the attach continues. -/
def attachTraceAfterPublish : Topic Nat :=
  (attachTraceAfterAdd.publish_message 42 "m1" 5).1

/-- Step 3: the attach resumes and takes the replay snapshot with
last_n = 1 (topic_manager.py:456-457). -/
def attachTraceReplay : List (EventMsg Nat) :=
  attachTraceAfterPublish.get_replay_messages 1

/-- Step 4: the delivery worker drains the queue and sends the batch to
the (active) subscriber through send_batch, which emits every message of
the batch on success. -/
def attachTraceLiveEmission : List (EventMsg Nat) :=
  (Subscriber.send_batch ⟨7, "t", false⟩ attachTraceAfterPublish.queue none).2.1

/-! Helper lemmas about takeWhile and dropWhile. -/

lemma takeWhile_append_of_all (p : α → Bool) (l1 l2 : List α) (h : l1.all p = true) :
    (l1 ++ l2).takeWhile p = l1 ++ l2.takeWhile p := by
  induction l1 with
  | nil => simp
  | cons a t ih =>
    simp only [List.all_cons, Bool.and_eq_true] at h
    simp [List.takeWhile_cons, h.1, ih h.2]

lemma dropWhile_append_of_all (p : α → Bool) (l1 l2 : List α) (h : l1.all p = true) :
    (l1 ++ l2).dropWhile p = l2.dropWhile p := by
  induction l1 with
  | nil => simp
  | cons a t ih =>
    simp only [List.all_cons, Bool.and_eq_true] at h
    simp [List.dropWhile_cons, h.1, ih h.2]

lemma all_takeWhile_self (p : α → Bool) (l : List α) : (l.takeWhile p).all p = true := by
  induction l with
  | nil => simp
  | cons a t ih =>
    by_cases h : p a
    · simp [List.takeWhile_cons, h, ih]
    · simp [List.takeWhile_cons, h]

lemma takeWhile_dropWhile_append (p : α → Bool) (l : List α) :
    l.takeWhile p ++ l.dropWhile p = l := by
  induction l with
  | nil => simp
  | cons a t ih =>
    by_cases h : p a
    · simp [List.takeWhile_cons, List.dropWhile_cons, h, ih]
    · simp [List.takeWhile_cons, List.dropWhile_cons, h]

/-- Characterization of the embedded regex call: it accepts exactly a
nonempty run of class characters, optionally followed by one newline. -/
lemma regexMatchTopicName_iff (s : List Char) :
    regexMatchTopicName s = true ↔
      (s ≠ [] ∧ s.all isTopicChar = true) ∨
      (∃ b : List Char, b ≠ [] ∧ b.all isTopicChar = true ∧ s = b ++ ['\n']) := by
  constructor
  · intro h
    unfold regexMatchTopicName at h
    simp only [Bool.and_eq_true, Bool.or_eq_true, Bool.not_eq_true'] at h
    obtain ⟨hbody, hrest⟩ := h
    have hsplit := takeWhile_dropWhile_append isTopicChar s
    have hball := all_takeWhile_self isTopicChar s
    rcases hrest with hrest | hrest
    · left
      have hrest' : s.dropWhile isTopicChar = [] := by
        simpa [List.isEmpty_iff] using hrest
      rw [hrest', List.append_nil] at hsplit
      refine ⟨?_, ?_⟩
      · intro hnil
        rw [hnil] at hsplit
        simp [List.takeWhile_nil] at hsplit
        rw [hnil, List.takeWhile_nil] at hbody
        simp at hbody
      · rw [← hsplit]; exact hball
    · right
      have hrest' : s.dropWhile isTopicChar = ['\n'] := by
        simpa using hrest
      refine ⟨s.takeWhile isTopicChar, ?_, hball, ?_⟩
      · intro hnil
        rw [hnil] at hbody
        simp at hbody
      · rw [← hrest']
        exact hsplit.symm
  · rintro (⟨hne, hall⟩ | ⟨b, hbne, hball, rfl⟩)
    · unfold regexMatchTopicName
      have h1 : s.takeWhile isTopicChar = s ++ [] := by
        simpa using takeWhile_append_of_all isTopicChar s [] hall
      have h2 : s.dropWhile isTopicChar = [] := by
        have := dropWhile_append_of_all isTopicChar s [] hall
        simpa using this
      simp only [List.append_nil] at h1
      simp [h1, h2, List.isEmpty_iff, hne]
    · unfold regexMatchTopicName
      have hnl : isTopicChar '\n' = false := by decide
      have h1 : (b ++ ['\n']).takeWhile isTopicChar = b := by
        rw [takeWhile_append_of_all isTopicChar b ['\n'] hball]
        simp [List.takeWhile_cons, hnl]
      have h2 : (b ++ ['\n']).dropWhile isTopicChar = ['\n'] := by
        rw [dropWhile_append_of_all isTopicChar b ['\n'] hball]
        simp [List.dropWhile_cons, hnl]
      simp [h1, h2, List.isEmpty_iff, hbne]

/-- C4 counterexample: the claim states validate_topic_name accepts a name
exactly when the length is 1..255 and every character is in the class
[A-Za-z0-9_.-].  The name "a\n" refutes it: the Python dollar anchor also
matches just before one trailing newline, so the name is accepted although
it contains a newline. -/
theorem validate_topic_name_claim_counterexample :
    ¬ (validate_topic_name ['a', '\n'] = true ↔
        (1 ≤ (['a', '\n'] : List Char).length ∧ (['a', '\n'] : List Char).length ≤ 255 ∧
         (['a', '\n'] : List Char).all isTopicChar = true)) := by
  decide

/-- C4 (amended): validate_topic_name name = true iff name has length at
most 255 and consists of one or more characters of [A-Za-z0-9_.-],
optionally followed by exactly one trailing newline (the length bound 1
is implied by nonemptiness of the class run). -/
theorem validate_topic_name_amended (name : List Char) :
    validate_topic_name name = true ↔
      (name.length ≤ 255 ∧
       ((name ≠ [] ∧ name.all isTopicChar = true) ∨
        (∃ b : List Char, b ≠ [] ∧ b.all isTopicChar = true ∧ name = b ++ ['\n']))) := by
  unfold validate_topic_name
  rcases Nat.lt_or_ge 255 name.length with hlen | hlen
  · have h1 : (name.isEmpty || decide (255 < name.length)) = true := by
      simp [hlen]
    simp only [h1]
    simp only [if_true]
    constructor
    · intro h; exact absurd h (by simp)
    · rintro ⟨h255, -⟩; omega
  · by_cases hnil : name = []
    · subst hnil
      simp only [List.isEmpty_nil, Bool.true_or, if_true]
      constructor
      · intro h; exact absurd h (by simp)
      · rintro ⟨-, (⟨hne, -⟩ | ⟨b, hbne, -, habs⟩)⟩
        · exact absurd rfl hne
        · exact absurd habs.symm (by simp [hbne])
    · have hc : (name.isEmpty || decide (255 < name.length)) = false := by
        simp [List.isEmpty_iff, hnil]
        omega
      simp only [hc]
      simp only [Bool.false_eq_true, if_false]
      by_cases hm : regexMatchTopicName name
      · have hgram := (regexMatchTopicName_iff name).mp hm
        simp only [hm, Bool.not_true]
        simp only [Bool.false_eq_true, if_false, true_iff]
        exact ⟨hlen, hgram⟩
      · have hm' : regexMatchTopicName name = false := by
          simpa using hm
        simp only [hm', Bool.not_false, if_true]
        constructor
        · intro h; exact absurd h (by simp)
        · rintro ⟨-, hgram⟩
          have hx : regexMatchTopicName name = true := (regexMatchTopicName_iff name).mpr hgram
          rw [hx] at hm'
          exact absurd hm' (by simp)

/-- C8: get_last_n returns exactly the last min(n, size) elements of the
buffer, in insertion order.  (The Python code returns them through a fresh
slice or an explicit copy, so the caller is decoupled from later appends;
in this pure embedding that aliasing aspect is by construction.) -/
theorem get_last_n_spec (rb : RingBuffer T) (n : Int) (hn : 0 ≤ n) :
    rb.get_last_n n =
      rb.buffer.drop (rb.buffer.length - min n.toNat rb.buffer.length) ∧
    (rb.get_last_n n).length = min n.toNat rb.buffer.length := by
  have hdroplen : ∀ (k : Nat),
      (rb.buffer.drop (rb.buffer.length - k)).length = min k rb.buffer.length := by
    intro k
    rw [List.length_drop]
    omega
  have heq : rb.get_last_n n =
      rb.buffer.drop (rb.buffer.length - min n.toNat rb.buffer.length) := by
    unfold RingBuffer.get_last_n
    split_ifs with h1 h2
    · have hz : n.toNat = 0 := by omega
      rw [hz]
      simp
    · have hmin : min n.toNat rb.buffer.length = n.toNat := by
        have : n.toNat < rb.buffer.length := by omega
        omega
      rw [hmin]
    · have hmin : min n.toNat rb.buffer.length = rb.buffer.length := by
        have : rb.buffer.length ≤ n.toNat := by omega
        omega
      rw [hmin, Nat.sub_self, List.drop_zero]
  refine ⟨heq, ?_⟩
  rw [heq, hdroplen]
  omega

/-- C8 witness: instantiates get_last_n_spec at a concrete buffer. -/
theorem get_last_n_spec_witness :
    (RingBuffer.mk 3 [10, 20, 30] : RingBuffer Nat).get_last_n 2 =
        List.drop (3 - min (Int.toNat 2) 3) [10, 20, 30] ∧
    ((RingBuffer.mk 3 [10, 20, 30] : RingBuffer Nat).get_last_n 2).length =
        min (Int.toNat 2) 3 := by
  have h := get_last_n_spec (RingBuffer.mk 3 [10, 20, 30] : RingBuffer Nat) 2 (by decide)
  exact h

/-- C10: when the closed flag is set, send_batch returns False at once,
emits nothing to the sink, and leaves the subscriber (in particular the
closed flag) unchanged. -/
theorem send_batch_closed_noop (sub : Subscriber) (messages : List (EventMsg Nat))
    (sinkFailsAt : Option Nat) (h : sub.closed = true) :
    sub.send_batch messages sinkFailsAt = (false, [], sub) ∧
    (sub.send_batch messages sinkFailsAt).2.2.closed = true := by
  unfold Subscriber.send_batch
  rw [h]
  exact ⟨by simp, by simp [h]⟩

/-- C10 witness: instantiates send_batch_closed_noop at a closed
subscriber and a nonempty batch. -/
theorem send_batch_closed_noop_witness :
    Subscriber.send_batch ⟨7, "t", true⟩ [(⟨"t", 42, "m1", 5⟩ : EventMsg Nat)] none =
        (false, [], ⟨7, "t", true⟩) ∧
    (Subscriber.send_batch ⟨7, "t", true⟩ [(⟨"t", 42, "m1", 5⟩ : EventMsg Nat)] none).2.2.closed
        = true :=
  send_batch_closed_noop ⟨7, "t", true⟩ [⟨"t", 42, "m1", 5⟩] none (by decide)

/-! Frame lemmas for Topic operations. -/

lemma remove_subscriber_published (t : Topic D) (cid : Nat) :
    ((t.remove_subscriber cid).1).messages_published = t.messages_published := by
  unfold Topic.remove_subscriber; split_ifs <;> rfl

lemma remove_subscriber_dropped (t : Topic D) (cid : Nat) :
    ((t.remove_subscriber cid).1).messages_dropped = t.messages_dropped := by
  unfold Topic.remove_subscriber; split_ifs <;> rfl

lemma remove_subscriber_delivered (t : Topic D) (cid : Nat) :
    ((t.remove_subscriber cid).1).messages_delivered = t.messages_delivered := by
  unfold Topic.remove_subscriber; split_ifs <;> rfl

lemma add_subscriber_published (t : Topic D) (sub : Subscriber) :
    (t.add_subscriber sub).messages_published = t.messages_published := by
  unfold Topic.add_subscriber; split_ifs <;> rfl

lemma add_subscriber_dropped (t : Topic D) (sub : Subscriber) :
    (t.add_subscriber sub).messages_dropped = t.messages_dropped := by
  unfold Topic.add_subscriber; split_ifs <;> rfl

lemma record_latencies_cons (t : Topic D) (m : EventMsg D) (rest : List (EventMsg D)) (now : ℚ) :
    Topic.record_latencies t (m :: rest) now
      = Topic.record_latencies
          (if m.publish_time = 0 then t
           else { t with latencies := trimSamples (t.latencies ++ [(now - m.publish_time) * 1000]) })
          rest now := rfl

lemma record_latencies_published (t : Topic D) (batch : List (EventMsg D)) (now : ℚ) :
    (t.record_latencies batch now).messages_published = t.messages_published := by
  induction batch generalizing t with
  | nil => rfl
  | cons m rest ih =>
    rw [record_latencies_cons, ih]
    split_ifs <;> rfl

lemma record_latencies_dropped (t : Topic D) (batch : List (EventMsg D)) (now : ℚ) :
    (t.record_latencies batch now).messages_dropped = t.messages_dropped := by
  induction batch generalizing t with
  | nil => rfl
  | cons m rest ih =>
    rw [record_latencies_cons, ih]
    split_ifs <;> rfl

lemma record_latencies_delivered (t : Topic D) (batch : List (EventMsg D)) (now : ℚ) :
    (t.record_latencies batch now).messages_delivered = t.messages_delivered := by
  induction batch generalizing t with
  | nil => rfl
  | cons m rest ih =>
    rw [record_latencies_cons, ih]
    split_ifs <;> rfl

lemma record_latencies_subscribers (t : Topic D) (batch : List (EventMsg D)) (now : ℚ) :
    (t.record_latencies batch now).subscribers = t.subscribers := by
  induction batch generalizing t with
  | nil => rfl
  | cons m rest ih =>
    rw [record_latencies_cons, ih]
    split_ifs <;> rfl

/-- Membership in the subscriber ids after a removal: the element was
there before and is not the removed id. -/
lemma mem_ids_remove_subscriber {t : Topic D} {cid c : Nat}
    (h : c ∈ ((t.remove_subscriber cid).1).subscribers.map (fun s => s.client_id)) :
    c ∈ t.subscribers.map (fun s => s.client_id) ∧ c ≠ cid := by
  unfold Topic.remove_subscriber at h
  split_ifs at h with hany
  · simp only [List.mem_map, List.mem_filter] at h
    obtain ⟨s, ⟨hmem, hpred⟩, rfl⟩ := h
    refine ⟨List.mem_map.mpr ⟨s, hmem, rfl⟩, ?_⟩
    simpa using hpred
  · refine ⟨h, ?_⟩
    intro hcid
    subst hcid
    apply hany
    simp only [List.any_eq_true]
    simp only [List.mem_map] at h
    obtain ⟨s, hmem, hid⟩ := h
    exact ⟨s, hmem, by simp [hid]⟩

lemma not_mem_ids_remove_subscriber {t : Topic D} {cid c : Nat}
    (h : c ∉ t.subscribers.map (fun s => s.client_id)) :
    c ∉ ((t.remove_subscriber cid).1).subscribers.map (fun s => s.client_id) := by
  intro hc
  exact h (mem_ids_remove_subscriber hc).1

lemma self_not_mem_ids_remove_subscriber (t : Topic D) (cid : Nat) :
    cid ∉ ((t.remove_subscriber cid).1).subscribers.map (fun s => s.client_id) := by
  intro hc
  exact (mem_ids_remove_subscriber hc).2 rfl

/-! Lemmas about the fold of removals performed by a flush. -/

lemma foldl_remove_published (l : List (Subscriber × SendOutcome)) (t : Topic D) :
    (l.foldl (fun acc p => (acc.remove_subscriber p.1.client_id).1) t).messages_published
      = t.messages_published := by
  induction l generalizing t with
  | nil => rfl
  | cons p rest ih => rw [List.foldl_cons, ih, remove_subscriber_published]

lemma foldl_remove_dropped (l : List (Subscriber × SendOutcome)) (t : Topic D) :
    (l.foldl (fun acc p => (acc.remove_subscriber p.1.client_id).1) t).messages_dropped
      = t.messages_dropped := by
  induction l generalizing t with
  | nil => rfl
  | cons p rest ih => rw [List.foldl_cons, ih, remove_subscriber_dropped]

lemma foldl_remove_delivered (l : List (Subscriber × SendOutcome)) (t : Topic D) :
    (l.foldl (fun acc p => (acc.remove_subscriber p.1.client_id).1) t).messages_delivered
      = t.messages_delivered := by
  induction l generalizing t with
  | nil => rfl
  | cons p rest ih => rw [List.foldl_cons, ih, remove_subscriber_delivered]

lemma foldl_remove_not_mem (l : List (Subscriber × SendOutcome)) (t : Topic D) (c : Nat)
    (h : c ∉ t.subscribers.map (fun s => s.client_id)) :
    c ∉ (l.foldl (fun acc p => (acc.remove_subscriber p.1.client_id).1) t).subscribers.map
          (fun s => s.client_id) := by
  induction l generalizing t with
  | nil => exact h
  | cons p rest ih =>
    rw [List.foldl_cons]
    exact ih _ (not_mem_ids_remove_subscriber h)

lemma foldl_remove_mem_removed (l : List (Subscriber × SendOutcome)) (t : Topic D)
    (p : Subscriber × SendOutcome) (hp : p ∈ l) :
    p.1.client_id ∉ (l.foldl (fun acc p => (acc.remove_subscriber p.1.client_id).1) t).subscribers.map
          (fun s => s.client_id) := by
  induction l generalizing t with
  | nil => exact absurd hp (List.not_mem_nil p)
  | cons q rest ih =>
    rw [List.foldl_cons]
    rcases List.mem_cons.mp hp with rfl | hp'
    · exact foldl_remove_not_mem rest _ _ (self_not_mem_ids_remove_subscriber t p.1.client_id)
    · exact ih _ hp'

lemma flush_batch_published (t : Topic D) (batch : List (EventMsg D))
    (outcomes : List SendOutcome) (now : ℚ) :
    (t.flush_batch batch outcomes now).1.messages_published = t.messages_published := by
  simp only [Topic.flush_batch]
  split_ifs
  · rfl
  · rfl
  · rfl
  · simp only
    rw [foldl_remove_published, record_latencies_published]
    rfl

lemma flush_batch_dropped (t : Topic D) (batch : List (EventMsg D))
    (outcomes : List SendOutcome) (now : ℚ) :
    (t.flush_batch batch outcomes now).1.messages_dropped = t.messages_dropped := by
  simp only [Topic.flush_batch]
  split_ifs
  · rfl
  · rfl
  · rfl
  · simp only
    rw [foldl_remove_dropped, record_latencies_dropped]
    rfl

/-- In every reachable topic state the dropped counter is bounded by the
published counter: publish_message is the only operation touching either,
and it always increments published while incrementing dropped at most
once. -/
lemma reachable_dropped_le_published {t : Topic D} (h : TopicReachable D t) :
    t.messages_dropped ≤ t.messages_published := by
  induction h with
  | init name => exact Nat.le_refl 0
  | step hre hstep ih =>
    cases hstep with
    | publish data mid now =>
      simp only [Topic.publish_message]
      split_ifs
      · exact Nat.le_succ_of_le ih
      · exact Nat.succ_le_succ ih
    | add sub => rw [add_subscriber_published, add_subscriber_dropped]; exact ih
    | remove cid => rw [remove_subscriber_published, remove_subscriber_dropped]; exact ih
    | deliver k outcomes now => rw [flush_batch_published, flush_batch_dropped]; exact ih
    | closeAll => exact ih

/-- C1: publish_message appends the message to the replay ring and
increments the published counter; then exactly when the ingest queue is
full the message is not enqueued and the dropped counter is incremented,
otherwise the same message is enqueued and the dropped counter is
unchanged; the call returns the subscriber count read under the lock (the
embedding is a total function, publish never raises); and in every
reachable state, before and after, dropped is at most published. -/
theorem publish_message_contract (t : Topic Nat) (data : Nat) (mid : String) (now : ℚ)
    (hre : TopicReachable Nat t) :
    ((t.publish_message data mid now).1.message_buffer
        = t.message_buffer.append ⟨t.name, data, mid, now⟩)
  ∧ ((t.publish_message data mid now).1.messages_published = t.messages_published + 1)
  ∧ ((t.publish_message data mid now).2 = t.subscribers.length)
  ∧ ((t.publish_message data mid now).1.queue
        = if t.queue.length < t.queue_maxsize then t.queue ++ [⟨t.name, data, mid, now⟩]
          else t.queue)
  ∧ ((t.publish_message data mid now).1.messages_dropped
        = if t.queue.length < t.queue_maxsize then t.messages_dropped
          else t.messages_dropped + 1)
  ∧ (t.messages_dropped ≤ t.messages_published)
  ∧ ((t.publish_message data mid now).1.messages_dropped
        ≤ (t.publish_message data mid now).1.messages_published) := by
  have hinv := reachable_dropped_le_published hre
  simp only [Topic.publish_message]
  split_ifs with hq
  · exact ⟨rfl, rfl, rfl, rfl, rfl, hinv, Nat.le_succ_of_le hinv⟩
  · exact ⟨rfl, rfl, rfl, rfl, rfl, hinv, Nat.succ_le_succ hinv⟩

/-- C1 witness: instantiates publish_message_contract at the initial
state of a fresh topic. -/
theorem publish_message_contract_witness :
    ((Topic.init "t" : Topic Nat).publish_message 0 "m" 5).1.messages_published
        = (Topic.init "t" : Topic Nat).messages_published + 1 ∧
    ((Topic.init "t" : Topic Nat).publish_message 0 "m" 5).2
        = (Topic.init "t" : Topic Nat).subscribers.length ∧
    ((Topic.init "t" : Topic Nat).publish_message 0 "m" 5).1.messages_dropped
        ≤ ((Topic.init "t" : Topic Nat).publish_message 0 "m" 5).1.messages_published := by
  have h := publish_message_contract (Topic.init "t") 0 "m" 5 (TopicReachable.init "t")
  exact ⟨h.2.1, h.2.2.1, h.2.2.2.2.2.2⟩

lemma record_batch_size_subscribers (t : Topic D) (k : Nat) :
    (t.record_batch_size k).subscribers = t.subscribers := rfl

lemma record_batch_size_delivered (t : Topic D) (k : Nat) :
    (t.record_batch_size k).messages_delivered = t.messages_delivered := rfl

/-- Unfolded form of flush_batch for a nonempty batch: the two early
returns (no subscribers at all, or no active subscriber) coincide, since
an empty subscriber list has an empty active filter. -/
lemma flush_batch_eq (t : Topic D) (batch : List (EventMsg D))
    (outcomes : List SendOutcome) (now : ℚ) (hb : batch.isEmpty = false) :
    t.flush_batch batch outcomes now =
      (if (t.subscribers.filter (fun s => !s.is_closed)).isEmpty
       then (t.record_batch_size batch.length, [])
       else
         ({ (List.filter (fun q => !(q.2 == SendOutcome.ok))
              ((t.subscribers.filter (fun s => !s.is_closed)).zip outcomes)).foldl
                (fun acc p => (acc.remove_subscriber p.1.client_id).1)
                ((t.record_batch_size batch.length).record_latencies batch now) with
            messages_delivered :=
              (((List.filter (fun q => !(q.2 == SendOutcome.ok))
                  ((t.subscribers.filter (fun s => !s.is_closed)).zip outcomes)).foldl
                    (fun acc p => (acc.remove_subscriber p.1.client_id).1)
                    ((t.record_batch_size batch.length).record_latencies batch now)).messages_delivered
                + batch.length *
                  (List.filter (fun q => (q.2 == SendOutcome.ok))
                    ((t.subscribers.filter (fun s => !s.is_closed)).zip outcomes)).length) },
          (List.filter (fun q => !(q.2 == SendOutcome.ok))
            ((t.subscribers.filter (fun s => !s.is_closed)).zip outcomes)).map
              (fun q => { q.1 with closed := true }))) := by
  simp only [Topic.flush_batch, hb, Bool.false_eq_true, if_false,
    record_batch_size_subscribers, record_latencies_subscribers]
  by_cases hsub : t.subscribers.isEmpty
  · have hnil : t.subscribers = [] := by
      simpa [List.isEmpty_iff] using hsub
    have hact : (t.subscribers.filter (fun s => !s.is_closed)).isEmpty = true := by
      simp [hnil]
    simp [hsub, hact]
  · have hsub' : t.subscribers.isEmpty = false := by
      simpa using hsub
    simp only [hsub', Bool.false_eq_true, if_false]

/-- C3: a flush of a nonempty batch raises the delivered counter by
exactly the batch length times the number of subscribers whose send
succeeded (outcome ok), and every subscriber whose send returned False,
raised, or timed out is detached: its id is gone from the subscriber set
and its handle, closed, is in the detached list.  Failed subscribers thus
contribute nothing to the counter. -/
theorem flush_batch_contract (t : Topic Nat) (batch : List (EventMsg Nat))
    (outcomes : List SendOutcome) (now : ℚ) (hb : batch ≠ []) :
    ((t.flush_batch batch outcomes now).1.messages_delivered
        = t.messages_delivered + batch.length *
            (((t.subscribers.filter (fun s => !s.is_closed)).zip outcomes).filter
                (fun p => p.2 == SendOutcome.ok)).length)
  ∧ (∀ p ∈ (t.subscribers.filter (fun s => !s.is_closed)).zip outcomes,
        p.2 ≠ SendOutcome.ok →
          (p.1.client_id ∉ (t.flush_batch batch outcomes now).1.subscribers.map
              (fun s => s.client_id)
           ∧ ({ p.1 with closed := true } : Subscriber)
                ∈ (t.flush_batch batch outcomes now).2)) := by
  have hbe : batch.isEmpty = false := by
    cases batch with
    | nil => exact absurd rfl hb
    | cons a l => rfl
  rw [flush_batch_eq t batch outcomes now hbe]
  by_cases hact : (t.subscribers.filter (fun s => !s.is_closed)).isEmpty
  · have hnil : (t.subscribers.filter (fun s => !s.is_closed)) = [] := by
      simpa [List.isEmpty_iff] using hact
    simp only [hact, if_true]
    constructor
    · rw [record_batch_size_delivered, hnil]
      simp
    · intro p hp
      rw [hnil] at hp
      simp at hp
  · have hact' : (t.subscribers.filter (fun s => !s.is_closed)).isEmpty = false := by
      simpa using hact
    simp only [hact', Bool.false_eq_true, if_false]
    constructor
    · rw [foldl_remove_delivered, record_latencies_delivered, record_batch_size_delivered]
    · intro p hp hne
      have hpfail : p ∈ List.filter (fun q => !(q.2 == SendOutcome.ok))
          ((t.subscribers.filter (fun s => !s.is_closed)).zip outcomes) := by
        refine List.mem_filter.mpr ⟨hp, ?_⟩
        simpa using hne
      constructor
      · exact foldl_remove_mem_removed _ _ p hpfail
      · exact List.mem_map.mpr ⟨p, hpfail, rfl⟩

/-- C3 witness: instantiates flush_batch_contract at a concrete flush in
which subscriber 1 succeeds and subscriber 2 fails. -/
theorem flush_batch_contract_witness :
    ((flushExampleTopic.flush_batch [⟨"t", 42, "m1", 5⟩]
        [SendOutcome.ok, SendOutcome.failed] 6).1.messages_delivered
      = flushExampleTopic.messages_delivered +
          (([⟨"t", 42, "m1", 5⟩] : List (EventMsg Nat)).length *
            (((flushExampleTopic.subscribers.filter (fun s => !s.is_closed)).zip
                [SendOutcome.ok, SendOutcome.failed]).filter
                  (fun p => p.2 == SendOutcome.ok)).length))
  ∧ ((2 : Nat) ∉ (flushExampleTopic.flush_batch [⟨"t", 42, "m1", 5⟩]
        [SendOutcome.ok, SendOutcome.failed] 6).1.subscribers.map (fun s => s.client_id)) := by
  have h := flush_batch_contract flushExampleTopic [⟨"t", 42, "m1", 5⟩]
    [SendOutcome.ok, SendOutcome.failed] 6 (by decide)
  refine ⟨h.1, ?_⟩
  have h2 := h.2 (⟨2, "t", false⟩, SendOutcome.failed) (by decide) (by decide)
  exact h2.1

lemma rollingSamples_eq_nil_iff (t : Topic D) : rollingSamples t = [] ↔ t.latencies = [] := by
  unfold rollingSamples
  constructor
  · intro h
    have hl := congrArg List.length h
    rw [List.length_drop] at hl
    simp only [List.length_nil] at hl
    have hm : 0 < maxMetricsSamples := by norm_num [maxMetricsSamples]
    have hz : t.latencies.length = 0 := by omega
    exact List.length_eq_zero.mp hz
  · intro h
    simp [h]

lemma rollingSamples_length_le (t : Topic D) : (rollingSamples t).length ≤ maxMetricsSamples := by
  unfold rollingSamples
  rw [List.length_drop]
  omega

lemma floor_mul_p95 (n : ℕ) : Nat.floor ((0.95 : ℚ) * (n : ℚ)) = n * 95 / 100 := by
  have h : (0.95 : ℚ) * (n : ℚ) = ((n * 95 : ℕ) : ℚ) / ((100 : ℕ) : ℚ) := by
    push_cast
    rw [show (0.95 : ℚ) = 95 / 100 from by norm_num]
    ring
  rw [h, Nat.floor_div_nat, Nat.floor_natCast]

lemma floor_mul_p99 (n : ℕ) : Nat.floor ((0.99 : ℚ) * (n : ℚ)) = n * 99 / 100 := by
  have h : (0.99 : ℚ) * (n : ℚ) = ((n * 99 : ℕ) : ℚ) / ((100 : ℕ) : ℚ) := by
    push_cast
    rw [show (0.99 : ℚ) = 99 / 100 from by norm_num]
    ring
  rw [h, Nat.floor_div_nat, Nat.floor_natCast]

set_option maxRecDepth 4000 in
/-- C7: the latency figures of the metrics snapshot are computed over the
sorted rolling window of at most the 1000 most recent samples, with the
p95 value taken at index floor(0.95 times n) and the p99 value at index
floor(0.99 times n), both clamped to n - 1; the average is the sum over
the window divided by n; with no samples all three are 0; the window is
empty exactly when no samples were ever recorded, and never holds more
than 1000 entries. -/
theorem get_metrics_percentiles (t : Topic Nat) :
    ((t.get_metrics).latency_p95
        = (if rollingSamples t = [] then 0
           else (List.insertionSort (· ≤ ·) (rollingSamples t)).getD
                  (min (Nat.floor ((0.95 : ℚ) * ((rollingSamples t).length : ℚ)))
                       ((rollingSamples t).length - 1)) 0))
  ∧ ((t.get_metrics).latency_p99
        = (if rollingSamples t = [] then 0
           else (List.insertionSort (· ≤ ·) (rollingSamples t)).getD
                  (min (Nat.floor ((0.99 : ℚ) * ((rollingSamples t).length : ℚ)))
                       ((rollingSamples t).length - 1)) 0))
  ∧ ((t.get_metrics).latency_avg
        = (if rollingSamples t = [] then 0
           else (rollingSamples t).sum / ((rollingSamples t).length : ℚ)))
  ∧ ((rollingSamples t = []) ↔ t.latencies = [])
  ∧ (rollingSamples t).length ≤ maxMetricsSamples := by
  refine ⟨?_, ?_, ?_, rollingSamples_eq_nil_iff t, rollingSamples_length_le t⟩
  all_goals
    by_cases hemp : t.latencies.drop (t.latencies.length - maxMetricsSamples) = []
  · have hr : rollingSamples t = [] := hemp
    rw [if_pos hr]
    simp only [Topic.get_metrics, hemp, List.isEmpty_nil, eq_self_iff_true, if_true]
  · have he : (t.latencies.drop (t.latencies.length - maxMetricsSamples)).isEmpty = false := by
      simp [List.isEmpty_iff, hemp]
    simp only [Topic.get_metrics, rollingSamples, he, Bool.false_eq_true, if_false,
      List.length_insertionSort, floor_mul_p95]
    rw [if_neg hemp]
  · have hr : rollingSamples t = [] := hemp
    rw [if_pos hr]
    simp only [Topic.get_metrics, hemp, List.isEmpty_nil, eq_self_iff_true, if_true]
  · have he : (t.latencies.drop (t.latencies.length - maxMetricsSamples)).isEmpty = false := by
      simp [List.isEmpty_iff, hemp]
    simp only [Topic.get_metrics, rollingSamples, he, Bool.false_eq_true, if_false,
      List.length_insertionSort, floor_mul_p99]
    rw [if_neg hemp]
  · have hr : rollingSamples t = [] := hemp
    rw [if_pos hr]
    simp only [Topic.get_metrics, hemp, List.isEmpty_nil, eq_self_iff_true, if_true]
  · have he : (t.latencies.drop (t.latencies.length - maxMetricsSamples)).isEmpty = false := by
      simp [List.isEmpty_iff, hemp]
    simp only [Topic.get_metrics, rollingSamples, he, Bool.false_eq_true, if_false]
    rw [if_neg hemp]

/-! Absence of a registry key is preserved by every operation except a
create of that very name. -/

lemma find?_key_append_none {l : List (String × Topic D)} {name n : String} {t : Topic D}
    (h : l.find? (fun p => p.1 == name) = none) (hn : n ≠ name) :
    (l ++ [(n, t)]).find? (fun p => p.1 == name) = none := by
  rw [List.find?_eq_none] at h ⊢
  intro x hx
  rcases List.mem_append.mp hx with hx | hx
  · exact h x hx
  · have hxeq : x = (n, t) := by simpa using hx
    subst hxeq
    simp [hn]

lemma find?_key_filter_none {l : List (String × Topic D)} {name : String}
    (q : String × Topic D → Bool)
    (h : l.find? (fun p => p.1 == name) = none) :
    (l.filter q).find? (fun p => p.1 == name) = none := by
  rw [List.find?_eq_none] at h ⊢
  intro x hx
  exact h x (List.mem_of_mem_filter hx)

lemma find?_key_map_none {l : List (String × Topic D)} {name : String}
    (f : String × Topic D → String × Topic D) (hf : ∀ p, (f p).1 = p.1)
    (h : l.find? (fun p => p.1 == name) = none) :
    (l.map f).find? (fun p => p.1 == name) = none := by
  rw [List.find?_eq_none] at h ⊢
  intro x hx
  obtain ⟨p, hp, rfl⟩ := List.mem_map.mp hx
  intro hcontra
  apply h p hp
  rw [hf p] at hcontra
  exact hcontra

lemma get_topic_none_preserved {s : TopicManager D} {name : String} {op : MgrOp D}
    (h : s.get_topic name = none) (hop : op.isCreateOf name = false) :
    (op.apply s).get_topic name = none := by
  have hfind : s.topics.find? (fun p => p.1 == name) = none := by
    unfold TopicManager.get_topic at h
    cases hf : s.topics.find? (fun p => p.1 == name) with
    | none => rfl
    | some p => rw [hf] at h; simp at h
  cases op with
  | create n =>
    have hn : n ≠ name := by simpa [MgrOp.isCreateOf] using hop
    simp only [MgrOp.apply, TopicManager.create_topic]
    cases hg : TopicManager.get_topic s n with
    | some t => simpa [hg] using h
    | none =>
      simp only [hg]
      unfold TopicManager.get_topic
      rw [find?_key_append_none hfind hn]
      rfl
  | delete n =>
    simp only [MgrOp.apply, TopicManager.delete_topic]
    cases hg : TopicManager.get_topic s n with
    | none => simpa [hg] using h
    | some t =>
      simp only [hg]
      unfold TopicManager.get_topic
      rw [find?_key_filter_none _ hfind]
      rfl
  | publishOp n d m now =>
    simp only [MgrOp.apply, TopicManager.publish]
    cases hg : TopicManager.get_topic s n with
    | none => simpa [hg] using h
    | some t =>
      simp only [hg]
      unfold TopicManager.updateTopic TopicManager.get_topic
      have hm := find?_key_map_none
        (fun p => if p.1 == n then (p.1, (t.publish_message d m now).1) else p)
        (fun p => by by_cases hp : (p.1 == n) = true <;> simp [hp]) hfind
      rw [hm]
      rfl
  | subscribeOp n c l =>
    simp only [MgrOp.apply, TopicManager.subscribe]
    cases hg : TopicManager.get_topic s n with
    | none => simpa [hg] using h
    | some t =>
      simp only [hg]
      unfold TopicManager.updateTopic TopicManager.get_topic
      have hm := find?_key_map_none
        (fun p => if p.1 == n then (p.1, t.add_subscriber ⟨c, n, false⟩) else p)
        (fun p => by by_cases hp : (p.1 == n) = true <;> simp [hp]) hfind
      rw [hm]
      rfl
  | unsubscribeOp n c =>
    simp only [MgrOp.apply, TopicManager.unsubscribe]
    cases hg : TopicManager.get_topic s n with
    | none => simpa [hg] using h
    | some t =>
      simp only [hg]
      unfold TopicManager.updateTopic TopicManager.get_topic
      have hm := find?_key_map_none
        (fun p => if p.1 == n then (p.1, (t.remove_subscriber c).1) else p)
        (fun p => by by_cases hp : (p.1 == n) = true <;> simp [hp]) hfind
      rw [hm]
      rfl
  | cleanup c =>
    simp only [MgrOp.apply, TopicManager.cleanup_subscriber]
    unfold TopicManager.get_topic
    have hm := find?_key_map_none
      (fun p : String × Topic D => (p.1, (p.2.remove_subscriber c).1))
      (fun p => rfl) hfind
    rw [hm]
    rfl
  | deliverOp n k o now =>
    simp only [MgrOp.apply]
    cases hg : TopicManager.get_topic s n with
    | none => simpa [hg] using h
    | some t =>
      simp only [hg]
      unfold TopicManager.updateTopic TopicManager.get_topic
      have hm := find?_key_map_none
        (fun p => if p.1 == n then
            (p.1, ((({ t with queue := t.queue.drop k } : Topic D).flush_batch
                (t.queue.take k) o now).1)) else p)
        (fun p => by by_cases hp : (p.1 == n) = true <;> simp [hp]) hfind
      rw [hm]
      rfl

lemma applyOps_get_topic_none {s : TopicManager D} {name : String} {ops : List (MgrOp D)}
    (h : s.get_topic name = none) (hops : ∀ op ∈ ops, op.isCreateOf name = false) :
    (applyOps s ops).get_topic name = none := by
  induction ops generalizing s with
  | nil => exact h
  | cons op rest ih =>
    unfold applyOps
    rw [List.foldl_cons]
    exact ih (get_topic_none_preserved h (hops op (List.mem_cons_self op rest)))
      (fun o ho => hops o (List.mem_cons_of_mem op ho))

lemma delete_topic_removes (s : TopicManager D) (name : String) :
    ((s.delete_topic name).1).get_topic name = none := by
  unfold TopicManager.delete_topic
  cases hg : TopicManager.get_topic s name with
  | none => simp [hg]
  | some t =>
    simp only [hg]
    unfold TopicManager.get_topic
    have : ((s.topics.filter (fun p => !(p.1 == name))).find? (fun p => p.1 == name)) = none := by
      rw [List.find?_eq_none]
      intro p hp
      have := (List.mem_filter.mp hp).2
      simpa using this
    rw [this]
    rfl

/-- C5: once delete_topic has removed a topic and returned True, every
later publish and subscribe for that name returns None (not-found), and
this persists across any sequence of registry operations that contains no
create of that name; the registry entry is removed before the old Topic
is shut down, so nothing can rebind to it. -/
theorem delete_topic_finality (s : TopicManager Nat) (name : String)
    (ops : List (MgrOp Nat)) (data : Nat) (mid : String) (now : ℚ)
    (client_id : Nat) (last_n : Int)
    (_hdel : (s.delete_topic name).2 = true)
    (hops : ∀ op ∈ ops, op.isCreateOf name = false) :
    ((applyOps (s.delete_topic name).1 ops).get_topic name = none)
  ∧ (((applyOps (s.delete_topic name).1 ops).publish name data mid now).2 = none)
  ∧ (((applyOps (s.delete_topic name).1 ops).subscribe name client_id last_n).2 = none) := by
  have hnone : ((applyOps (s.delete_topic name).1 ops)).get_topic name = none :=
    applyOps_get_topic_none (delete_topic_removes s name) hops
  refine ⟨hnone, ?_, ?_⟩
  · unfold TopicManager.publish
    rw [hnone]
  · unfold TopicManager.subscribe
    rw [hnone]

/-- C5 witness: instantiates delete_topic_finality on a registry holding
topics t and u, deleting t and then performing unrelated operations. -/
theorem delete_topic_finality_witness :
    ((applyOps (registryExample.delete_topic "t").1
        [MgrOp.create "u", MgrOp.publishOp "u" 1 "m" 5]).get_topic "t" = none)
  ∧ (((applyOps (registryExample.delete_topic "t").1
        [MgrOp.create "u", MgrOp.publishOp "u" 1 "m" 5]).publish "t" 0 "m2" 6).2 = none)
  ∧ (((applyOps (registryExample.delete_topic "t").1
        [MgrOp.create "u", MgrOp.publishOp "u" 1 "m" 5]).subscribe "t" 9 3).2 = none) := by
  have h := delete_topic_finality registryExample "t"
    [MgrOp.create "u", MgrOp.publishOp "u" 1 "m" 5] 0 "m2" 6 9 3
    (by decide) (by decide)
  exact h

/-- C6: create_topic on a name that already exists returns True and leaves
the registry, hence the existing Topic with all of its subscriber set,
replay ring, counters and rolling samples, completely unchanged. -/
theorem create_topic_idempotent (s : TopicManager Nat) (name : String) (t : Topic Nat)
    (h : s.get_topic name = some t) :
    s.create_topic name = (s, true) ∧ (s.create_topic name).1.get_topic name = some t := by
  unfold TopicManager.create_topic
  rw [h]
  exact ⟨rfl, by rw [h]⟩

/-- C6 witness: instantiates create_topic_idempotent on the example
registry, re-creating the existing topic u. -/
theorem create_topic_idempotent_witness :
    registryExample.create_topic "u" = (registryExample, true) ∧
    (registryExample.create_topic "u").1.get_topic "u" = some (Topic.init "u") := by
  have h := create_topic_idempotent registryExample "u" (Topic.init "u") (by decide)
  exact h

/-- C2 (code bug): the attach is not protected by one mutex, and the
interleaving above makes message m1 reach the subscriber twice: it is the
replay prefix and it is also the live batch, since the subscriber was
already in the set when m1 was enqueued.  The replay prefix and the live
stream are therefore not disjoint, contrary to the claim; a single mutex
over the whole attach, as the specification mandates, would exclude this
interleaving. -/
theorem attach_replay_live_duplication :
    (attachTraceReplay.map (fun m => m.message_id) = ["m1"])
  ∧ (attachTraceLiveEmission.map (fun m => m.message_id) = ["m1"])
  ∧ (attachTraceAfterPublish.subscribers.filter (fun s => !s.is_closed)
        = [⟨7, "t", false⟩]) := by
  decide

/-- C9 (code bug): every event frame sent to a client carries the internal
_publish_time key.  The frame of the message dict built by publish_message
has exactly the keys type, topic, data, message_id and _publish_time; the
live path (send_batch) emits the stored dict unchanged, and the replay
path (get_replay_messages, forwarded verbatim by the session layer at
ws/handler.py:184-186) returns the stored dict unchanged.  The claim that
frames consist only of type, topic, data and message_id is therefore
violated on both paths. -/
theorem event_frame_leaks_publish_time :
    ((EventMsg.frame (⟨"t", 42, "m1", 5⟩ : EventMsg Nat)).map Prod.fst
        = ["type", "topic", "data", "message_id", "_publish_time"])
  ∧ ("_publish_time" ∈ (EventMsg.frame (⟨"t", 42, "m1", 5⟩ : EventMsg Nat)).map Prod.fst)
  ∧ ((Subscriber.send_batch ⟨7, "t", false⟩ [(⟨"t", 42, "m1", 5⟩ : EventMsg Nat)] none).2.1
        = [⟨"t", 42, "m1", 5⟩])
  ∧ (((Topic.init "t" : Topic Nat).publish_message 42 "m1" 5).1.get_replay_messages 1
        = [⟨"t", 42, "m1", 5⟩]) := by
  decide

end PubSub
